import Mathlib

set_option maxRecDepth 8192

/-!
Shallow embedding of the replay analyzer's deterministic state-capture /
state-injection core (src/tools/replay-analyzer): the patched
`PseudoRandom.prototype.nextID` wrapper, the process-wide stream registry
installed by the checkout-time source patch, RNG snapshot capture and
restore, the game-state snapshot validators, hook installation/cleanup,
and the `tryPatchPseudoRandomForReplayAnalyzer` source patcher.
-/

namespace ReplayAnalyzer

/-- Generic association list lookup, modelling JS `Map.get` /
object-key access for the maps used throughout the analyzer. -/
def assocLookup {κ β : Type} [DecidableEq κ] (m : List (κ × β)) (k : κ) : Option β :=
  match m with
  | [] => none
  | e :: rest => if e.1 = k then some e.2 else assocLookup rest k

/-- Generic association list update, modelling JS `Map.set` / object-key
assignment: replaces the value of an existing key in place, else appends. -/
def assocSet {κ β : Type} [DecidableEq κ] (m : List (κ × β)) (k : κ) (v : β) :
    List (κ × β) :=
  match m with
  | [] => [(k, v)]
  | e :: rest => if e.1 = k then (k, v) :: rest else e :: assocSet rest k v

/-- Keys of an association list (in entry order). -/
def assocKeys {κ β : Type} (m : List (κ × β)) : List κ := m.map (fun e => e.1)

/-! ### The patched `PseudoRandom.prototype.nextID`
(`installStateInjection`, src/tools/replay-analyzer/compareCommits.ts) -/

/-- Mutable state of the `nextID` patch installed by `installStateInjection`:
`idIndex` is the cursor into the captured identifier sequence, `warnings`
the shared injection warning list. -/
structure InjState where
  idIndex : Nat
  warnings : List String
deriving DecidableEq

/-- The one-time warning pushed when the comparison pass generates more
identifiers than were captured. -/
def msgExtraIds (captured : Nat) : String :=
  "Generated additional IDs beyond captured state (" ++ toString captured ++
    " captured). This may cause desync if bot spawning behavior changed."

/-- The patched `PseudoRandom.prototype.nextID` from `installStateInjection`:
always invokes the original `nextID` first (advancing the underlying
generator state `ρ`), then returns the next captured identifier while any
remain, else falls back to the freshly generated identifier, pushing the
"additional IDs" warning exactly when `idIndex - capturedLength + 1 == 1`. -/
def patchedNextID {ρ : Type} (cap : List String) (orig : ρ → String × ρ) :
    ρ × InjState → String × (ρ × InjState) := fun rs =>
  let r := rs.1
  let s := rs.2
  let gr := orig r
  let generatedID := gr.1
  let r' := gr.2
  if s.idIndex < cap.length then
    (cap.getD s.idIndex "", (r', ⟨s.idIndex + 1, s.warnings⟩))
  else
    let extraIds := s.idIndex - cap.length + 1
    let warnings' :=
      if extraIds = 1 then s.warnings ++ [msgExtraIds cap.length] else s.warnings
    (generatedID, (r', ⟨s.idIndex + 1, warnings'⟩))

/-- The original `nextID`, abstracted as a seeded stream of draws: the
generator state is the number of draws made so far and each call performs
exactly one draw, yielding `gen k`. -/
def origCounted (gen : Nat → String) : Nat → String × Nat := fun k => (gen k, k + 1)

/-- Runs `n` successive calls of the patched `nextID` during a comparison pass,
returning the identifiers visible to the engine and the final
(generator, injection) state. -/
def njRun (cap : List String) (gen : Nat → String) :
    Nat → Nat × InjState → List String × (Nat × InjState)
  | 0, st => ([], st)
  | n + 1, st =>
    let one := patchedNextID cap (origCounted gen) st
    let rest := njRun cap gen n one.2
    (one.1 :: rest.1, rest.2)

/-- Runs `n` successive calls of the unpatched `nextID` (an unmodified run),
returning the generated identifiers and the final generator state. -/
def origRun (gen : Nat → String) : Nat → Nat → List String × Nat
  | 0, k => ([], k)
  | n + 1, k =>
    let one := origCounted gen k
    let rest := origRun gen n one.2
    (one.1 :: rest.1, rest.2)

theorem patchedNextID_out (cap : List String) (gen : Nat → String) (k : Nat)
    (s : InjState) :
    (patchedNextID cap (origCounted gen) (k, s)).1 =
      if s.idIndex < cap.length then cap.getD s.idIndex "" else gen k := by
  by_cases h : s.idIndex < cap.length <;> simp [patchedNextID, origCounted, h]

theorem patchedNextID_state (cap : List String) (gen : Nat → String) (k : Nat)
    (s : InjState) :
    (patchedNextID cap (origCounted gen) (k, s)).2 =
      (k + 1, ⟨s.idIndex + 1,
        if s.idIndex < cap.length then s.warnings
        else if s.idIndex - cap.length + 1 = 1 then
          s.warnings ++ [msgExtraIds cap.length]
        else s.warnings⟩) := by
  by_cases h : s.idIndex < cap.length
  · simp [patchedNextID, origCounted, h]
  · by_cases h1 : s.idIndex - cap.length + 1 = 1 <;>
      simp [patchedNextID, origCounted, h, h1]

theorem njRun_succ (cap : List String) (gen : Nat → String) (n : Nat)
    (st : Nat × InjState) :
    njRun cap gen (n + 1) st =
      ((patchedNextID cap (origCounted gen) st).1 ::
          (njRun cap gen n ((patchedNextID cap (origCounted gen) st).2)).1,
        (njRun cap gen n ((patchedNextID cap (origCounted gen) st).2)).2) := rfl

theorem njRun_genState (cap : List String) (gen : Nat → String) :
    ∀ (n k : Nat) (s : InjState), (njRun cap gen n (k, s)).2.1 = k + n := by
  intro n
  induction n with
  | zero => intro k s; rfl
  | succ n ih =>
    intro k s
    rw [njRun_succ]
    simp only [patchedNextID_state]
    rw [ih]
    omega

theorem origRun_genState (gen : Nat → String) :
    ∀ (n k : Nat), (origRun gen n k).2 = k + n := by
  intro n
  induction n with
  | zero => intro k; rfl
  | succ n ih =>
    intro k
    show (origRun gen n (k + 1)).2 = k + (n + 1)
    rw [ih]
    omega

/-- C1: every call of the injected `nextID` wrapper invokes the original
generator exactly once, while captured identifiers remain and after
exhaustion alike: after `n` wrapper calls from generator state `k` the
generator has made exactly `n` further draws — the same count an
unmodified run of `n` calls makes. -/
theorem injected_nextID_generator_call_count (cap : List String)
    (gen : Nat → String) (n k : Nat) (s : InjState) :
    (njRun cap gen n (k, s)).2.1 = k + n ∧
      (njRun cap gen n (k, s)).2.1 = (origRun gen n k).2 := by
  constructor
  · exact njRun_genState cap gen n k s
  · rw [njRun_genState cap gen n k s, origRun_genState gen n k]

theorem njRun_outputs (cap : List String) (gen : Nat → String) :
    ∀ (n k j : Nat) (w : List String),
      (njRun cap gen n (k, ⟨j, w⟩)).1 =
        (List.range n).map
          (fun i => if j + i < cap.length then cap.getD (j + i) "" else gen (k + i)) := by
  intro n
  induction n with
  | zero => intro k j w; rfl
  | succ n ih =>
    intro k j w
    rw [njRun_succ, List.range_succ_eq_map, List.map_cons, List.map_map]
    simp only [patchedNextID_out, patchedNextID_state]
    congr 1
    rw [ih]
    apply List.map_congr_left
    intro i _
    have h1 : j + 1 + i = j + (i + 1) := by omega
    have h2 : k + 1 + i = k + (i + 1) := by omega
    simp [Function.comp, h1, h2, List.getD_eq_getElem?_getD]

/-- C3: while the captured sequence has unconsumed entries each wrapper call
returns the next captured identifier in captured order, and once it is
exhausted every subsequent call returns the freshly generated value; the
generator draw-count nevertheless matches an unmodified run. -/
theorem injected_nextID_returns_captured_then_generated (cap : List String)
    (gen : Nat → String) (n k : Nat) (w : List String) :
    (njRun cap gen n (k, ⟨0, w⟩)).1 =
        (List.range n).map
          (fun i => if i < cap.length then cap.getD i "" else gen (k + i)) ∧
      (njRun cap gen n (k, ⟨0, w⟩)).2.1 = (origRun gen n k).2 := by
  constructor
  · rw [njRun_outputs cap gen n k 0 w]
    apply List.map_congr_left
    intro i _
    simp
  · rw [njRun_genState, origRun_genState]

theorem njRun_warnings (cap : List String) (gen : Nat → String) :
    ∀ (n k j : Nat) (w : List String),
      (njRun cap gen n (k, ⟨j, w⟩)).2.2.warnings =
        w ++ (if j ≤ cap.length ∧ cap.length < j + n
              then [msgExtraIds cap.length] else []) := by
  intro n
  induction n with
  | zero =>
    intro k j w
    have : ¬ (j ≤ cap.length ∧ cap.length < j + 0) := by omega
    simp [njRun, this]
  | succ n ih =>
    intro k j w
    rw [njRun_succ]
    simp only [patchedNextID_state]
    rw [ih]
    by_cases h : j < cap.length
    · have hiff : (j + 1 ≤ cap.length ∧ cap.length < j + 1 + n) ↔
          (j ≤ cap.length ∧ cap.length < j + (n + 1)) := by omega
      simp only [h, if_pos, hiff]
    · by_cases hj : j = cap.length
      · have hcond : j - cap.length + 1 = 1 := by omega
        have hno : ¬ (j + 1 ≤ cap.length ∧ cap.length < j + 1 + n) := by omega
        have hyes : j ≤ cap.length ∧ cap.length < j + (n + 1) := by omega
        simp [h, hcond, hno, hyes]
      · have hcond : ¬ (j - cap.length + 1 = 1) := by omega
        have hno1 : ¬ (j + 1 ≤ cap.length ∧ cap.length < j + 1 + n) := by omega
        have hno2 : ¬ (j ≤ cap.length ∧ cap.length < j + (n + 1)) := by omega
        simp [h, hcond, hno1, hno2]

/-- C4: when a comparison pass makes more `nextID` calls than there are
captured identifiers, exactly one "additional IDs" warning is appended to
the injection warning list, no matter how many extra identifiers follow. -/
theorem injected_nextID_single_extra_ids_warning (cap : List String)
    (gen : Nat → String) (n k : Nat) (w : List String) :
    (njRun cap gen n (k, ⟨0, w⟩)).2.2.warnings =
      w ++ (if cap.length < n then [msgExtraIds cap.length] else []) := by
  rw [njRun_warnings]
  have : (0 ≤ cap.length ∧ cap.length < 0 + n) ↔ cap.length < n := by omega
  simp only [this]

/-! ### The process-wide PseudoRandom registry
(patch text in src/tools/replay-analyzer/openfrontCheckout.ts) -/

/-- The registration performed inside the patched `PseudoRandom` constructor:
the new stream is appended to the per-seed list of the process-wide
registry and receives the zero-based creation-order index
`list.length` among streams sharing that seed. -/
def registerStream {σ : Type} (bySeed : List (Nat × List σ)) (seed : Nat) (s : σ) :
    List (Nat × List σ) × Nat :=
  let list := (assocLookup bySeed seed).getD []
  let index := list.length
  (assocSet bySeed seed (list ++ [s]), index)

/-- The patch's exported `__replayAnalyzerResetPseudoRandomRegistry`:
replaces the registry with a fresh empty `bySeed` map.  No code in the
repository ever invokes it. -/
def resetPseudoRandomRegistry (σ : Type) : List (Nat × List σ) := []

/-- C2 (code bug evidence): `compareCommits` never resets the process-wide
registry between the reference and the comparison pass, so comparison-pass
registration indices continue after the reference pass's count instead of
restarting at 0: with one reference-pass stream registered under seed 0,
the comparison pass's first stream under seed 0 receives index 1.  Had the
patch's (never-invoked) reset run between the passes, it would receive
index 0 as the claim requires. -/
theorem registry_not_reset_between_passes :
    (registerStream (registerStream ([] : List (Nat × List Nat)) 0 0).1 0 1).2 = 1 ∧
      (registerStream (registerStream ([] : List (Nat × List Nat)) 0 0).1 0 1).2 ≠ 0 ∧
      (registerStream (resetPseudoRandomRegistry Nat) 0 1).2 = 0 := by
  refine ⟨rfl, by decide, rfl⟩

/-! ### RNG snapshot capture
(src/tools/replay-analyzer/stateCapture.ts `captureRngSnapshot` and the
snapshot call sites in `runReplayWithCapture`,
src/tools/replay-analyzer/compareCommits.ts) -/

/-- A stream as seen by the capture collector: `getStateFn` is `some st`
when the checkout-time patch has installed `__replayAnalyzerGetState`
(returning serialized state `st`), `none` on an unpatched stream. -/
structure CStream (St : Type) where
  getStateFn : Option St
deriving DecidableEq

/-- One record of `rngSnapshotsByTick`: a stream's seed, creation-order
index and serialized state. -/
structure SnapEntry (St : Type) where
  seed : Nat
  index : Nat
  state : St
deriving DecidableEq

/-- The snapshot list built by `captureRngSnapshot`'s nested loops: for
every seed, every stream with a `__replayAnalyzerGetState` function
contributes `(seed, index, state)`. -/
def collectRngSnaps {St : Type} (bySeed : List (Nat × List (CStream St))) :
    List (SnapEntry St) :=
  bySeed.flatMap (fun e =>
    e.2.enum.filterMap (fun ir =>
      match ir.2.getStateFn with
      | some st => some ⟨e.1, ir.1, st⟩
      | none => none))

/-- Model of `captureRngSnapshot(tick)` from stateCapture.ts: if the process-wide
registry (`reg?.bySeed`) is unavailable it returns without touching the
map, otherwise it stores the collected snapshot under key `tick` —
unconditionally, with no tick-range check of its own. -/
def captureRngSnapshot {St : Type} (reg : Option (List (Nat × List (CStream St))))
    (tick : Nat) (rngSnapshotsByTick : List (Nat × List (SnapEntry St))) :
    List (Nat × List (SnapEntry St)) :=
  match reg with
  | none => rngSnapshotsByTick
  | some bySeed => assocSet rngSnapshotsByTick tick (collectRngSnaps bySeed)

/-- The snapshot-relevant effect of `runReplayWithCapture`'s `onAfterTick`
callback: `captureRngSnapshot(tick)` when `tick ≤ 30`, and at tick 30 the
tick-30 game-state snapshot additionally calls `captureRngSnapshot(30)`. -/
def captureOnAfterTickSnaps {St : Type}
    (reg : Option (List (Nat × List (CStream St))))
    (m : List (Nat × List (SnapEntry St))) (tick : Nat) :
    List (Nat × List (SnapEntry St)) :=
  let m1 := if tick ≤ 30 then captureRngSnapshot reg tick m else m
  if tick = 30 then captureRngSnapshot reg tick m1 else m1

/-- The snapshot-relevant trace of a reference run: `onGameInitialized`
captures at the initialization tick `t0` (via the tick-0 game-state
snapshot), then `onAfterTick` fires for each tick of `ticks`. -/
def captureRunSnaps {St : Type} (reg : Option (List (Nat × List (CStream St))))
    (t0 : Nat) (ticks : List Nat) : List (Nat × List (SnapEntry St)) :=
  ticks.foldl (captureOnAfterTickSnaps reg) (captureRngSnapshot reg t0 [])

theorem assocKeys_assocSet {κ β : Type} [DecidableEq κ]
    (m : List (κ × β)) (k : κ) (v : β) :
    ∀ x ∈ assocKeys (assocSet m k v), x = k ∨ x ∈ assocKeys m := by
  induction m with
  | nil => intro x hx; simp [assocSet, assocKeys] at hx; simp [hx]
  | cons e rest ih =>
    intro x hx
    by_cases h : e.1 = k
    · simp [assocSet, assocKeys, h] at hx
      rcases hx with hx | hx
      · exact Or.inl hx
      · exact Or.inr (by simp [assocKeys, hx])
    · simp [assocSet, assocKeys, h] at hx
      rcases hx with hx | hx
      · exact Or.inr (by simp [assocKeys, hx])
      · rcases ih x (by simpa [assocKeys] using hx) with h1 | h1
        · exact Or.inl h1
        · exact Or.inr (by simp [assocKeys] at h1 ⊢; exact Or.inr h1)

theorem captureRngSnapshot_keys {St : Type}
    (reg : Option (List (Nat × List (CStream St)))) (tick : Nat)
    (m : List (Nat × List (SnapEntry St))) :
    ∀ x ∈ assocKeys (captureRngSnapshot reg tick m),
      x = tick ∨ x ∈ assocKeys m := by
  match reg with
  | none => intro x hx; exact Or.inr hx
  | some bySeed =>
    intro x hx
    exact assocKeys_assocSet m tick (collectRngSnaps bySeed) x hx

/-- C5 (counterexample): `captureRngSnapshot` is not a no-op outside ticks
0–30: called at tick 31 with a registry holding one patched stream, it
records a snapshot under key 31. -/
theorem captureRngSnapshot_records_outside_spawn_window :
    captureRngSnapshot (some [(0, [⟨some 0⟩])]) 31
        ([] : List (Nat × List (SnapEntry Nat))) = [(31, [⟨0, 0, 0⟩])] ∧
      captureRngSnapshot (some [(0, [⟨some 0⟩])]) 31
        ([] : List (Nat × List (SnapEntry Nat))) ≠ [] := by
  refine ⟨by decide, by decide⟩

/-- C5 (amended): the 0–30 bound is enforced at `captureRngSnapshot`'s call
sites in `runReplayWithCapture`, not inside the function: provided the
tick-0 snapshot fires at a tick `t0 ≤ 30` (it runs before any tick, at
tick 0), every key of the produced `rngSnapshotsByTick` lies in 0–30,
whatever ticks the simulation reaches. -/
theorem rngSnapshotsByTick_keys_bounded {St : Type}
    (reg : Option (List (Nat × List (CStream St)))) (t0 : Nat)
    (ticks : List Nat) (h0 : t0 ≤ 30) :
    ∀ x ∈ assocKeys (captureRunSnaps reg t0 ticks), x ≤ 30 := by
  have hstep : ∀ (m : List (Nat × List (SnapEntry St))) (t : Nat),
      (∀ x ∈ assocKeys m, x ≤ 30) →
      ∀ x ∈ assocKeys (captureOnAfterTickSnaps reg m t), x ≤ 30 := by
    intro m t hm x hx
    unfold captureOnAfterTickSnaps at hx
    by_cases h30 : t = 30
    · simp only [h30, if_pos, le_refl, if_true] at hx
      rcases captureRngSnapshot_keys reg 30 _ x hx with h | h
      · omega
      · rcases captureRngSnapshot_keys reg 30 m x h with h | h
        · omega
        · exact hm x h
    · simp only [h30, if_false] at hx
      by_cases hle : t ≤ 30
      · simp only [hle, if_pos] at hx
        rcases captureRngSnapshot_keys reg t m x hx with h | h
        · omega
        · exact hm x h
      · simp only [hle, if_false] at hx
        exact hm x hx
  have hfold : ∀ (ts : List Nat) (m : List (Nat × List (SnapEntry St))),
      (∀ x ∈ assocKeys m, x ≤ 30) →
      ∀ x ∈ assocKeys (ts.foldl (captureOnAfterTickSnaps reg) m), x ≤ 30 := by
    intro ts
    induction ts with
    | nil => intro m hm; exact hm
    | cons t ts ih =>
      intro m hm
      exact ih _ (hstep m t hm)
  apply hfold
  intro x hx
  rcases captureRngSnapshot_keys reg t0 _ x hx with h | h
  · omega
  · simp [assocKeys] at h

/-! ### RNG snapshot restore
(`restoreRngSnapshot`, src/tools/replay-analyzer/compareCommits.ts) -/

/-- A stream as seen by the injection enforcer: its serialized state, whether
the checkout-time patch installed `__replayAnalyzerSetState`, and whether
invoking that setter throws (`setFail = some e` models a throwing call). -/
structure IStream (St : Type) where
  state : St
  hasSetFn : Bool
  setFail : Option String
deriving DecidableEq

/-- Model of `__replayAnalyzerSetState(state)`: replaces the stream's serialized state
by rebuilding its generator from the snapshot, or throws. -/
def streamSetState {St : Type} (rng : IStream St) (st : St) :
    Except String (IStream St) :=
  match rng.setFail with
  | some e => Except.error e
  | none => Except.ok ⟨st, rng.hasSetFn, rng.setFail⟩

/-- Replace the stream at `(seed, index)` in the registry, leaving the
registry unchanged when the slot does not exist. -/
def regUpdateAt {St : Type} (bySeed : List (Nat × List (IStream St)))
    (seed index : Nat) (rng : IStream St) : List (Nat × List (IStream St)) :=
  match assocLookup bySeed seed with
  | none => bySeed
  | some l => assocSet bySeed seed (l.set index rng)

/-- The `for (const s of snaps)` loop of `restoreRngSnapshot`: looks each
`(seed, index)` up in the live registry, skips slots without a stream or
without a `__replayAnalyzerSetState` function, applies the setter
otherwise, and stops at the first thrown exception (the enclosing `try`
catches it), keeping the updates already made. -/
def restoreLoop {St : Type} (bySeed : List (Nat × List (IStream St))) :
    List (SnapEntry St) → List (Nat × List (IStream St)) × Option String
  | [] => (bySeed, none)
  | s :: rest =>
    match (assocLookup bySeed s.seed).bind (fun l => l[s.index]?) with
    | none => restoreLoop bySeed rest
    | some rng =>
      if rng.hasSetFn then
        match streamSetState rng s.state with
        | Except.error e => (bySeed, some e)
        | Except.ok rng' => restoreLoop (regUpdateAt bySeed s.seed s.index rng') rest
      else restoreLoop bySeed rest

/-- Warning pushed when restoring an RNG snapshot throws. -/
def msgRestoreFail (tick : Nat) (e : String) : String :=
  "Failed to restore RNG snapshot at tick " ++ toString tick ++ ": " ++ e

/-- Model of `restoreRngSnapshot(tick)` from `installStateInjection`: returns
immediately when the tick has no (or an empty) captured snapshot or when
the process-wide registry is unavailable; otherwise walks the snapshot
entries, and a thrown restore attempt is caught and converted into one
warning. -/
def restoreRngSnapshot {St : Type}
    (rngSnapshotsByTick : List (Nat × List (SnapEntry St)))
    (reg : Option (List (Nat × List (IStream St)))) (tick : Nat)
    (warnings : List String) :
    Option (List (Nat × List (IStream St))) × List String :=
  match assocLookup rngSnapshotsByTick tick with
  | none => (reg, warnings)
  | some snaps =>
    if snaps.isEmpty then (reg, warnings)
    else
      match reg with
      | none => (reg, warnings)
      | some bySeed =>
        match restoreLoop bySeed snaps with
        | (bySeed', none) => (some bySeed', warnings)
        | (bySeed', some e) => (some bySeed', warnings ++ [msgRestoreFail tick e])

/-- All streams of a registry have a non-throwing setter. -/
def regNoSetFail {St : Type} (bySeed : List (Nat × List (IStream St))) : Prop :=
  ∀ e ∈ bySeed, ∀ rng ∈ e.2, rng.setFail = none

theorem assocLookup_assocSet_mem {κ β : Type} [DecidableEq κ]
    (m : List (κ × β)) (k : κ) (v : β) :
    ∀ e ∈ assocSet m k v, e = (k, v) ∨ e ∈ m := by
  induction m with
  | nil => intro e he; simp [assocSet] at he; simp [he]
  | cons a rest ih =>
    intro e he
    by_cases h : a.1 = k
    · simp [assocSet, h] at he
      rcases he with he | he
      · exact Or.inl he
      · exact Or.inr (by simp [he])
    · simp [assocSet, h] at he
      rcases he with he | he
      · exact Or.inr (by simp [he])
      · rcases ih e he with h1 | h1
        · exact Or.inl h1
        · exact Or.inr (by simp [h1])

theorem mem_of_getElem_eq_some {α : Type} {l : List α} {i : Nat} {a : α}
    (h : l[i]? = some a) : a ∈ l := by
  rw [List.getElem?_eq_some] at h
  obtain ⟨hb, he⟩ := h
  exact he ▸ List.getElem_mem hb

theorem assocLookup_mem {κ β : Type} [DecidableEq κ] (m : List (κ × β)) (k : κ)
    (v : β) (h : assocLookup m k = some v) : (k, v) ∈ m := by
  induction m with
  | nil => simp [assocLookup] at h
  | cons a rest ih =>
    by_cases ha : a.1 = k
    · simp only [assocLookup, ha, if_pos, Option.some.injEq] at h
      have : a = (k, v) := by
        obtain ⟨a1, a2⟩ := a
        simp only at ha h
        simp [ha, h]
      simp [this]
    · simp only [assocLookup, ha, if_neg, not_false_iff] at h
      exact List.mem_cons_of_mem a (ih h)

theorem regNoSetFail_update {St : Type} (bySeed : List (Nat × List (IStream St)))
    (seed index : Nat) (rng : IStream St) (hr : rng.setFail = none)
    (h : regNoSetFail bySeed) : regNoSetFail (regUpdateAt bySeed seed index rng) := by
  unfold regUpdateAt
  match hl : assocLookup bySeed seed with
  | none => exact h
  | some l =>
    intro e he r hrmem
    rcases assocLookup_assocSet_mem bySeed seed (l.set index rng) e he with h1 | h1
    · subst h1
      simp only at hrmem
      rcases List.mem_or_eq_of_mem_set hrmem with h2 | h2
      · exact h _ (assocLookup_mem bySeed seed l hl) r h2
      · rw [h2]; exact hr
    · exact h e h1 r hrmem

theorem restoreLoop_no_throw {St : Type} (bySeed : List (Nat × List (IStream St)))
    (snaps : List (SnapEntry St)) (h : regNoSetFail bySeed) :
    (restoreLoop bySeed snaps).2 = none := by
  induction snaps generalizing bySeed with
  | nil => rfl
  | cons s rest ih =>
    unfold restoreLoop
    match hslot : (assocLookup bySeed s.seed).bind (fun l => l[s.index]?) with
    | none => exact ih bySeed h
    | some rng =>
      have hrng : rng.setFail = none := by
        match hl : assocLookup bySeed s.seed with
        | none => rw [hl] at hslot; simp at hslot
        | some l =>
          rw [hl] at hslot
          simp only [Option.some_bind] at hslot
          exact h _ (assocLookup_mem bySeed s.seed l hl) rng
            (mem_of_getElem_eq_some hslot)
      by_cases hs : rng.hasSetFn
      · simp only [hs, if_true]
        unfold streamSetState
        rw [hrng]
        exact ih _ (regNoSetFail_update bySeed s.seed s.index _ rfl h)
      · simp only [hs, if_false]
        exact ih bySeed h

/-- C9: `restoreRngSnapshot` silently returns — no stream-state modification,
no warning — for a tick with an absent or empty captured snapshot and when
the process-wide registry is unavailable; when a restore is attempted, no
warning is appended unless an attempt throws, and a thrown attempt is
caught and converted into exactly one warning. -/
theorem restoreRngSnapshot_silent_and_warns_only_on_throw {St : Type}
    (m : List (Nat × List (SnapEntry St)))
    (reg : Option (List (Nat × List (IStream St)))) (tick : Nat)
    (w : List String) :
    (assocLookup m tick = none → restoreRngSnapshot m reg tick w = (reg, w)) ∧
    (assocLookup m tick = some [] → restoreRngSnapshot m reg tick w = (reg, w)) ∧
    (restoreRngSnapshot m none tick w = (none, w)) ∧
    (∀ snaps bySeed, assocLookup m tick = some snaps → snaps ≠ [] →
      regNoSetFail bySeed →
      restoreRngSnapshot m (some bySeed) tick w =
        (some (restoreLoop bySeed snaps).1, w)) ∧
    (∀ snaps bySeed e, assocLookup m tick = some snaps → snaps ≠ [] →
      (restoreLoop bySeed snaps).2 = some e →
      restoreRngSnapshot m (some bySeed) tick w =
        (some (restoreLoop bySeed snaps).1, w ++ [msgRestoreFail tick e])) := by
  refine ⟨?_, ?_, ?_, ?_, ?_⟩
  · intro h
    unfold restoreRngSnapshot
    rw [h]
  · intro h
    unfold restoreRngSnapshot
    rw [h]
    rfl
  · unfold restoreRngSnapshot
    match h : assocLookup m tick with
    | none => rfl
    | some snaps =>
      cases snaps with
      | nil => rfl
      | cons a l => rfl
  · intro snaps bySeed h hne hnf
    obtain ⟨a, l, rfl⟩ : ∃ a l, snaps = a :: l := by
      cases snaps with
      | nil => exact absurd rfl hne
      | cons a l => exact ⟨a, l, rfl⟩
    have hloop := restoreLoop_no_throw bySeed (a :: l) hnf
    simp only [restoreRngSnapshot, h, List.isEmpty_cons, Bool.false_eq_true,
      if_false]
    cases hres : restoreLoop bySeed (a :: l) with
    | mk b' o =>
      rw [hres] at hloop
      simp only at hloop
      subst hloop
      simp [hres]
  · intro snaps bySeed e h hne hthrow
    obtain ⟨a, l, rfl⟩ : ∃ a l, snaps = a :: l := by
      cases snaps with
      | nil => exact absurd rfl hne
      | cons a l => exact ⟨a, l, rfl⟩
    simp only [restoreRngSnapshot, h, List.isEmpty_cons, Bool.false_eq_true,
      if_false]
    cases hres : restoreLoop bySeed (a :: l) with
    | mk b' o =>
      rw [hres] at hthrow
      simp only at hthrow
      subst hthrow
      simp [hres]

/-! ### Hook installation and cleanup
(`installStateCapture` / `installStateInjection` and the `finally` blocks of
`runReplayWithCapture` / `runReplayWithInjection`) -/

/-- The four entry points wrapped by `installStateCapture` and
`installStateInjection`: `PseudoRandom.prototype.nextID`,
`GameRunner.prototype.init`, `loadTerrainMap` and `getConfig`. -/
inductive PatchSlot
  | nextID
  | gameRunnerInit
  | loadTerrainMapSlot
  | getConfigSlot
deriving DecidableEq

/-- The runtime's patchable function slots; `none` models an entry point the
loaded engine version does not expose (old commits), which the installers
skip. -/
structure RuntimeFns (α : Type) where
  nextID : Option α
  gameRunnerInit : Option α
  loadTerrainMapFn : Option α
  getConfigFn : Option α
deriving DecidableEq

def RuntimeFns.get {α : Type} (rt : RuntimeFns α) : PatchSlot → Option α
  | PatchSlot.nextID => rt.nextID
  | PatchSlot.gameRunnerInit => rt.gameRunnerInit
  | PatchSlot.loadTerrainMapSlot => rt.loadTerrainMapFn
  | PatchSlot.getConfigSlot => rt.getConfigFn

def RuntimeFns.set {α : Type} (rt : RuntimeFns α) : PatchSlot → α → RuntimeFns α
  | PatchSlot.nextID, v => ⟨some v, rt.gameRunnerInit, rt.loadTerrainMapFn, rt.getConfigFn⟩
  | PatchSlot.gameRunnerInit, v => ⟨rt.nextID, some v, rt.loadTerrainMapFn, rt.getConfigFn⟩
  | PatchSlot.loadTerrainMapSlot, v => ⟨rt.nextID, rt.gameRunnerInit, some v, rt.getConfigFn⟩
  | PatchSlot.getConfigSlot, v => ⟨rt.nextID, rt.gameRunnerInit, rt.loadTerrainMapFn, some v⟩

/-- The wrapping performed by `installStateCapture` / `installStateInjection`,
abstracted over the wrapper bodies `wrap`: in source order each available
entry point is saved in the `originals` list and replaced by its wrapper;
absent entry points are skipped. -/
def installPatches {α : Type} (wrap : PatchSlot → α → α) (rt : RuntimeFns α) :
    RuntimeFns α × List (PatchSlot × α) :=
  [PatchSlot.nextID, PatchSlot.gameRunnerInit, PatchSlot.loadTerrainMapSlot,
    PatchSlot.getConfigSlot].foldl
    (fun acc s =>
      match acc.1.get s with
      | none => acc
      | some v => (acc.1.set s (wrap s v), acc.2 ++ [(s, v)]))
    (rt, [])

/-- The `cleanup` closure returned by both installers: walks the recorded
`originals` and writes each saved function value back to its slot. -/
def cleanupPatches {α : Type} (originals : List (PatchSlot × α))
    (rt : RuntimeFns α) : RuntimeFns α :=
  originals.foldl (fun r sv => RuntimeFns.set r sv.1 sv.2) rt

/-- A JS statement sequence that can throw, instrumented with a counter of
`cleanup()` invocations (the state). -/
def JsStep (α : Type) : Type := Nat → Except String α × Nat

def jsPure {α : Type} (a : α) : JsStep α := fun n => (Except.ok a, n)

/-- Statement sequencing: a thrown exception aborts the rest of the block. -/
def jsSeq {α β : Type} (x : JsStep α) (y : JsStep β) : JsStep β := fun n =>
  match x n with
  | (Except.ok _, n') => y n'
  | (Except.error e, n') => (Except.error e, n')

/-- JS `try { body } finally { fin }`: the finally block always runs; if it
completes abruptly its exception replaces the body's outcome, and any
statements after the abrupt point (in the enclosing block) do not run. -/
def jsTryFinally {α : Type} (body : JsStep α) (fin : JsStep Unit) : JsStep α :=
  fun n =>
    let r := body n
    let f := fin r.2
    match f.1 with
    | Except.error e => (Except.error e, f.2)
    | Except.ok _ => (r.1, f.2)

/-- The `cleanup()` call in the finally block. -/
def cleanupCall : JsStep Unit := fun n => (Except.ok (), n + 1)

/-- The `Profiler.stop` call plus profile write, which may throw. -/
def profilerStopAndWrite (throws : Bool) : JsStep Unit := fun n =>
  (if throws then Except.error "profiler stop failed" else Except.ok (), n)

/-- The `profSession.disconnect()` call in the inner finally. -/
def disconnectCall : JsStep Unit := jsPure ()

/-- The `finally` block of `runReplayWithCapture` / `runReplayWithInjection`:
when profiling is active, `try { Profiler.stop; write } finally
{ disconnect }` runs first, then `cleanup()`. -/
def runFinallyBlock (profActive stopThrows : Bool) : JsStep Unit :=
  jsSeq
    (if profActive then jsTryFinally (profilerStopAndWrite stopThrows) disconnectCall
     else jsPure ())
    cleanupCall

/-- Control skeleton of `runReplayWithCapture` / `runReplayWithInjection`:
install hooks, run the simulation body inside `try`, then the finally
block above. -/
def runReplaySkeleton {α : Type} (profActive stopThrows : Bool)
    (body : JsStep α) : JsStep α :=
  jsTryFinally body (runFinallyBlock profActive stopThrows)

/-- C6 (counterexample): with CPU profiling active, if `Profiler.stop` (or
the profile write) throws inside the `finally` block, `cleanup()` is never
invoked — even though the simulation body itself completed — because the
profiler handling precedes `cleanup()` in the same finally block. -/
theorem cleanup_skipped_when_profiler_stop_throws :
    (runReplaySkeleton true true (jsPure (0 : Nat)) 0).2 = 0 ∧
      ¬ ((runReplaySkeleton true true (jsPure (0 : Nat)) 0).2 = 1) := by
  refine ⟨rfl, by decide⟩

/-- C6 (amended): the single cleanup operation restores every wrapped entry
point to the exact original function value it held before installation;
and within `runReplayWithCapture` / `runReplayWithInjection` cleanup runs
exactly once whether the simulation body completes or throws, provided the
CPU-profiler teardown in the same finally block does not itself throw
(with profiling inactive it cannot). -/
theorem cleanup_restores_originals_and_runs_once {α : Type}
    (wrap : PatchSlot → α → α) (rt : RuntimeFns α)
    (profActive stopThrows : Bool) (res : Except String Unit) (n : Nat)
    (hp : ¬ (profActive = true ∧ stopThrows = true)) :
    cleanupPatches (installPatches wrap rt).2 (installPatches wrap rt).1 = rt ∧
      (runReplaySkeleton profActive stopThrows (fun m => (res, m)) n).2 = n + 1 := by
  constructor
  · obtain ⟨a, b, c, d⟩ := rt
    cases a <;> cases b <;> cases c <;> cases d <;> rfl
  · cases profActive with
    | false => cases res <;> rfl
    | true =>
      cases stopThrows with
      | false => cases res <;> rfl
      | true => exact absurd ⟨rfl, rfl⟩ hp

/-! ### Spawn-decision injection
(the `GameRunner.prototype.init` patch of `installStateInjection`) -/

/-- A captured spawn assignment (`spawnAssignmentsByPlayerId` entry):
assigned tile, coordinates, display name and player type. -/
structure SpawnRef where
  tile : Nat
  x : Nat
  y : Nat
  name : String
  type : String
deriving DecidableEq

/-- An execution object as inspected by `patchedAddExecution`:
`ctorName` is `ex.constructor.name`, `playerId` is `ex.playerInfo?.id`
when that is a string, `playerName` is `ex.playerInfo.name` and `tile` is
`ex.tile`. -/
structure ExecObj where
  ctorName : String
  playerId : Option String
  playerName : String
  tile : Nat
deriving DecidableEq

/-- The per-execution body of `patchedAddExecution`'s loop: a
`SpawnExecution` whose `playerInfo.id` is present in the captured spawn
map has its `tile` and `playerInfo.name` overwritten from the captured
assignment; everything else is left untouched. -/
def overrideSpawnExec (spawnMap : List (String × SpawnRef)) (ex : ExecObj) :
    ExecObj :=
  if ex.ctorName = "SpawnExecution" then
    match ex.playerId with
    | none => ex
    | some id =>
      match assocLookup spawnMap id with
      | none => ex
      | some ref => ⟨ex.ctorName, ex.playerId, ref.name, ref.tile⟩
  else ex

/-- The `patchedAddExecution` wrapper installed on `game.addExecution` during
`GameRunner.init`: mutates the scheduled executions as above, then invokes
the original `addExecution` on them. -/
def patchedAddExecution {α : Type} (spawnMap : List (String × SpawnRef))
    (originalAddExecution : List ExecObj → α) (execs : List ExecObj) : α :=
  originalAddExecution (execs.map (overrideSpawnExec spawnMap))

/-- C7: during the comparison pass every `SpawnExecution` scheduled through
`game.addExecution` inside `GameRunner.init` whose `playerInfo.id` is in
the captured spawn map reaches the original `addExecution` with its tile
and player name overwritten by the captured values; spawn executions of
unmapped players, executions without a string player id, and
non-`SpawnExecution` executions pass through unmodified. -/
theorem spawn_injection_overrides_mapped_players {α : Type}
    (spawnMap : List (String × SpawnRef))
    (originalAddExecution : List ExecObj → α) (execs : List ExecObj)
    (ex : ExecObj) (id : String) (ref : SpawnRef) :
    (patchedAddExecution spawnMap originalAddExecution execs =
        originalAddExecution (execs.map (overrideSpawnExec spawnMap))) ∧
      (ex.ctorName = "SpawnExecution" → ex.playerId = some id →
        assocLookup spawnMap id = some ref →
        overrideSpawnExec spawnMap ex =
          ⟨ex.ctorName, ex.playerId, ref.name, ref.tile⟩) ∧
      (ex.ctorName ≠ "SpawnExecution" → overrideSpawnExec spawnMap ex = ex) ∧
      (ex.playerId = none → overrideSpawnExec spawnMap ex = ex) ∧
      (∀ pid, ex.playerId = some pid → assocLookup spawnMap pid = none →
        overrideSpawnExec spawnMap ex = ex) := by
  refine ⟨rfl, ?_, ?_, ?_, ?_⟩
  · intro hctor hpid href
    simp [overrideSpawnExec, hctor, hpid, href]
  · intro hctor
    simp [overrideSpawnExec, hctor]
  · intro hpid
    simp [overrideSpawnExec, hpid]
  · intro pid hpid href
    simp [overrideSpawnExec, hpid, href]

/-! ### Game-state snapshot validation
(`validateGameStateSnapshotTick0` / `validateGameStateSnapshotTick30`,
src/tools/replay-analyzer/compareCommits.ts) -/

/-- The captured tick-0 game-state snapshot. -/
structure Snap0 where
  tick : Nat
  playerCount : Nat
  playerIds : List String
  hash : Option Int
deriving DecidableEq

/-- One entry of the captured tick-30 snapshot's `playersWithTiles`. -/
structure PlayerTiles where
  id : String
  name : String
  tileCount : Nat
deriving DecidableEq

/-- The captured tick-30 game-state snapshot. -/
structure Snap30 where
  tick : Nat
  playersWithTiles : List PlayerTiles
  hash : Option Int
deriving DecidableEq

/-- What the tick-0 validator observes from the live game: the player ids in
iteration order and `game.hash()` (`none` when `game.hash` is not a
function).  The whole observation happens before any warning is pushed, so
a throwing game handle is modelled as `Except.error`. -/
structure Obs0 where
  playerIds : List String
  hash : Option Int
deriving DecidableEq

/-- What the tick-30 validator observes: per player `(id, tileCount)` in
iteration order, and `game.hash()` when available. -/
structure Obs30 where
  players : List (String × Nat)
  hash : Option Int
deriving DecidableEq

/-- JS `Map.get` over entries inserted in iteration order (later `set` wins). -/
def mapGet {κ β : Type} [DecidableEq κ] (l : List (κ × β)) (k : κ) : Option β :=
  l.foldl (fun acc p => if p.1 = k then some p.2 else acc) none

def msgNoSnap0 : String := "No tick 0 snapshot captured from reference run"

def msgTick0Mismatch (expected got : Nat) : String :=
  "Tick 0 snapshot tick mismatch: expected " ++ toString expected ++ ", got " ++
    toString got

def msgCount0 (ref curr : Nat) : String :=
  "Tick 0: Player count mismatch - reference had " ++ toString ref ++
    ", current has " ++ toString curr

def msgIds0 (missing extra : Nat) : String :=
  "Tick 0: Player ID mismatch - " ++ toString missing ++ " missing, " ++
    toString extra ++ " extra"

def msgHash0 (ref curr : Int) : String :=
  "Tick 0: Hash mismatch - reference=" ++ toString ref ++ ", current=" ++
    toString curr

def msgFailed0 (e : String) : String :=
  "Failed to validate tick 0 snapshot: " ++ e

def msgNoSnap30 : String := "No tick 30 snapshot captured from reference run"

def msgTick30Mismatch (expected got : Nat) : String :=
  "Tick 30 snapshot tick mismatch: expected " ++ toString expected ++ ", got " ++
    toString got

def msgCount30 (tick ref curr : Nat) : String :=
  "Player count mismatch at tick " ++ toString tick ++ ": reference had " ++
    toString ref ++ ", current has " ++ toString curr

def msgMissingPlayer (id name : String) : String :=
  "Player " ++ id ++ " (" ++ name ++ ") missing in current run"

def msgTileCount (name : String) (ref curr : Nat) : String :=
  "Tile count mismatch for player " ++ name ++ ": reference had " ++
    toString ref ++ ", current has " ++ toString curr

def msgHash30 (tick : Nat) (ref curr : Int) : String :=
  "Game hash mismatch at tick " ++ toString tick ++ ": reference=" ++
    toString ref ++ ", current=" ++ toString curr ++
    ". Spawn phase diverged between commits."

def msgFailed30 (e : String) : String :=
  "Failed to validate game state snapshot: " ++ e

/-- Model of `validateGameStateSnapshotTick0`: returns the warnings it appends; it
never throws — a missing captured snapshot yields one warning and returns,
the tick check runs outside the `try`, and an exception while observing
the game is caught and converted into one warning. -/
def validateGameStateSnapshotTick0 (cap : Option Snap0) (tick : Nat)
    (obs : Except String Obs0) : List String :=
  match cap with
  | none => [msgNoSnap0]
  | some snapshot =>
    let w1 : List String :=
      if snapshot.tick ≠ tick then [msgTick0Mismatch snapshot.tick tick] else []
    match obs with
    | Except.error e => w1 ++ [msgFailed0 e]
    | Except.ok o =>
      let currentPlayerCount := o.playerIds.length
      let w2 : List String :=
        if currentPlayerCount ≠ snapshot.playerCount then
          [msgCount0 snapshot.playerCount currentPlayerCount]
        else []
      let missingIds := snapshot.playerIds.filter (fun id => ¬ o.playerIds.contains id)
      let extraIds := o.playerIds.filter (fun id => ¬ snapshot.playerIds.contains id)
      let w3 : List String :=
        if 0 < missingIds.length ∨ 0 < extraIds.length then
          [msgIds0 missingIds.length extraIds.length]
        else []
      let w4 : List String :=
        match snapshot.hash, o.hash with
        | some h, some ch => if h ≠ ch then [msgHash0 h ch] else []
        | some _, none => []
        | none, _ => []
      w1 ++ w2 ++ w3 ++ w4

/-- The per-reference-player loop of `validateGameStateSnapshotTick30`: a
player missing from the current run yields one warning, a present player
with a different tile count yields one warning. -/
def tick30PlayerWarnings (current : List (String × Nat))
    (refPlayer : PlayerTiles) : List String :=
  match mapGet current refPlayer.id with
  | none => [msgMissingPlayer refPlayer.id refPlayer.name]
  | some currTileCount =>
    if currTileCount ≠ refPlayer.tileCount then
      [msgTileCount refPlayer.name refPlayer.tileCount currTileCount]
    else []

/-- Model of `validateGameStateSnapshotTick30`: same shape as the tick-0 validator,
with per-player tile-count comparison. -/
def validateGameStateSnapshotTick30 (cap : Option Snap30) (tick : Nat)
    (obs : Except String Obs30) : List String :=
  match cap with
  | none => [msgNoSnap30]
  | some snapshot =>
    let w1 : List String :=
      if snapshot.tick ≠ tick then [msgTick30Mismatch snapshot.tick tick] else []
    match obs with
    | Except.error e => w1 ++ [msgFailed30 e]
    | Except.ok o =>
      let w2 : List String :=
        if o.players.length ≠ snapshot.playersWithTiles.length then
          [msgCount30 tick snapshot.playersWithTiles.length o.players.length]
        else []
      let w3 := snapshot.playersWithTiles.flatMap (tick30PlayerWarnings o.players)
      let w4 : List String :=
        match snapshot.hash, o.hash with
        | some h, some ch => if ch ≠ h then [msgHash30 tick h ch] else []
        | some _, none => []
        | none, _ => []
      w1 ++ w2 ++ w3 ++ w4

/-- C8: the validators are total warning-producing functions — they halt
nothing and throw nothing.  A missing captured snapshot produces exactly
the one "no snapshot" warning; an exception while validating is caught and
converted into one "failed to validate" warning (after the tick check,
which runs outside the `try`); and on a successful observation the number
of appended warnings equals the number of detected mismatches — tick,
player count, missing/extra ids (one warning), per-player missing or
tile-count mismatches, and integrity hash. -/
theorem validators_warn_and_never_halt :
    (∀ (tick : Nat) (obs : Except String Obs0),
        validateGameStateSnapshotTick0 none tick obs = [msgNoSnap0]) ∧
      (∀ (tick : Nat) (obs : Except String Obs30),
        validateGameStateSnapshotTick30 none tick obs = [msgNoSnap30]) ∧
      (∀ (s : Snap0) (tick : Nat) (e : String),
        validateGameStateSnapshotTick0 (some s) tick (Except.error e) =
          (if s.tick = tick then [] else [msgTick0Mismatch s.tick tick]) ++
            [msgFailed0 e]) ∧
      (∀ (s : Snap30) (tick : Nat) (e : String),
        validateGameStateSnapshotTick30 (some s) tick (Except.error e) =
          (if s.tick = tick then [] else [msgTick30Mismatch s.tick tick]) ++
            [msgFailed30 e]) ∧
      (∀ (s : Snap0) (tick : Nat) (o : Obs0),
        (validateGameStateSnapshotTick0 (some s) tick (Except.ok o)).length =
          (if s.tick = tick then 0 else 1) +
            (if o.playerIds.length = s.playerCount then 0 else 1) +
            (if (s.playerIds.filter (fun id => ¬ o.playerIds.contains id)).length = 0 ∧
                (o.playerIds.filter (fun id => ¬ s.playerIds.contains id)).length = 0
             then 0 else 1) +
            (match s.hash, o.hash with
             | some h, some ch => if h = ch then 0 else 1
             | _, _ => 0)) ∧
      (∀ (s : Snap30) (tick : Nat) (o : Obs30),
        (validateGameStateSnapshotTick30 (some s) tick (Except.ok o)).length =
          (if s.tick = tick then 0 else 1) +
            (if o.players.length = s.playersWithTiles.length then 0 else 1) +
            (s.playersWithTiles.map
              (fun p => (tick30PlayerWarnings o.players p).length)).sum +
            (match s.hash, o.hash with
             | some h, some ch => if ch = h then 0 else 1
             | _, _ => 0)) := by
  refine ⟨fun _ _ => rfl, fun _ _ => rfl, ?_, ?_, ?_, ?_⟩
  · intro s tick e
    unfold validateGameStateSnapshotTick0
    by_cases h : s.tick = tick <;> simp [h]
  · intro s tick e
    unfold validateGameStateSnapshotTick30
    by_cases h : s.tick = tick <;> simp [h]
  · intro s tick o
    unfold validateGameStateSnapshotTick0
    simp only [List.length_append]
    congr 1
    · congr 1
      · congr 1
        · by_cases h : s.tick = tick <;> simp [h]
        · by_cases h : o.playerIds.length = s.playerCount <;> simp [h]
      · generalize (s.playerIds.filter (fun id => ¬ o.playerIds.contains id)).length = a
        generalize (o.playerIds.filter (fun id => ¬ s.playerIds.contains id)).length = b
        by_cases hD : a = 0 ∧ b = 0
        · have hC : ¬ (0 < a ∨ 0 < b) := by omega
          rw [if_neg hC, if_pos hD]
          rfl
        · have hC : 0 < a ∨ 0 < b := by omega
          rw [if_pos hC, if_neg hD]
          rfl
    · match s.hash, o.hash with
      | some h, some ch => by_cases he : h = ch <;> simp [he]
      | some _, none => rfl
      | none, some _ => rfl
      | none, none => rfl
  · intro s tick o
    unfold validateGameStateSnapshotTick30
    simp only [List.length_append]
    congr 1
    · congr 1
      · congr 1
        · by_cases h : s.tick = tick <;> simp [h]
        · by_cases h : o.players.length = s.playersWithTiles.length <;> simp [h]
      · rw [List.length_flatMap]
        rfl
    · match s.hash, o.hash with
      | some h, some ch => by_cases he : ch = h <;> simp [he]
      | some _, none => rfl
      | none, some _ => rfl
      | none, none => rfl

/-! ### The checkout-time PseudoRandom source patch
(`tryPatchPseudoRandomForReplayAnalyzer`,
src/tools/replay-analyzer/openfrontCheckout.ts) -/

/-- First-occurrence search over character lists, the semantics of JS
`String.includes` / `String.replace` with a string pattern: the text
before and after the first occurrence of `pat`. -/
def splitFirst (pat : List Char) : List Char → Option (List Char × List Char)
  | [] => if pat.isEmpty then some ([], []) else none
  | c :: cs =>
    if pat.isPrefixOf (c :: cs) then some ([], (c :: cs).drop pat.length)
    else
      match splitFirst pat cs with
      | some pq => some (c :: pq.1, pq.2)
      | none => none

/-- JS `s.includes(pat)`. -/
def containsSub (pat s : List Char) : Bool := (splitFirst pat s).isSome

/-- JS `s.replace(pat, rep)` with a string pattern: replaces the first
occurrence of `pat`, returning `s` unchanged when there is none. -/
def replaceOne (pat rep s : List Char) : List Char :=
  match splitFirst pat s with
  | some pq => pq.1 ++ rep ++ pq.2
  | none => s

theorem splitFirst_eq_append (pat : List Char) :
    ∀ (s : List Char) (pq : List Char × List Char),
      splitFirst pat s = some pq → s = pq.1 ++ pat ++ pq.2 := by
  intro s
  induction s with
  | nil =>
    intro pq h
    unfold splitFirst at h
    by_cases hp : pat.isEmpty
    · rw [if_pos hp] at h
      obtain rfl : (([] : List Char), ([] : List Char)) = pq := Option.some.inj h
      have hpe : pat = [] := List.isEmpty_iff.mp hp
      simp [hpe]
    · rw [if_neg hp] at h
      exact absurd h (by simp)
  | cons c cs ih =>
    intro pq h
    unfold splitFirst at h
    by_cases hpre : pat.isPrefixOf (c :: cs)
    · rw [if_pos hpre] at h
      obtain rfl : (([] : List Char), (c :: cs).drop pat.length) = pq :=
        Option.some.inj h
      have hp : pat <+: (c :: cs) := List.isPrefixOf_iff_prefix.mp hpre
      have htake := List.prefix_iff_eq_take.mp hp
      conv_lhs => rw [← List.take_append_drop pat.length (c :: cs)]
      rw [← htake]
      simp
    · rw [if_neg hpre] at h
      cases hrec : splitFirst pat cs with
      | some pq' =>
        rw [hrec] at h
        obtain rfl : (c :: pq'.1, pq'.2) = pq := Option.some.inj h
        have hcs := ih pq' hrec
        simp only [List.cons_append]
        rw [← hcs]
      | none => rw [hrec] at h; exact absurd h (by simp)

theorem infix_of_containsSub {pat s : List Char}
    (h : containsSub pat s = true) : pat <:+: s := by
  unfold containsSub at h
  cases hs : splitFirst pat s with
  | none => rw [hs] at h; simp at h
  | some pq => exact ⟨pq.1, pq.2, (splitFirst_eq_append pat s pq hs).symm⟩

theorem containsSub_of_infix (pat : List Char) :
    ∀ (s : List Char), pat <:+: s → containsSub pat s = true := by
  intro s
  induction s with
  | nil =>
    intro h
    have hpe : pat = [] := List.infix_nil.mp h
    subst hpe
    rfl
  | cons c cs ih =>
    intro h
    unfold containsSub splitFirst
    by_cases hpre : pat.isPrefixOf (c :: cs)
    · rw [if_pos hpre]
      rfl
    · rw [if_neg hpre]
      rcases List.infix_cons_iff.mp h with hp | hi
      · exact absurd (List.isPrefixOf_iff_prefix.mpr hp) hpre
      · have hcs := ih hi
        unfold containsSub at hcs
        cases hrec : splitFirst pat cs with
        | some pq => rfl
        | none => rw [hrec] at hcs; simp at hcs

theorem replaceOne_of_not_contains {pat rep s : List Char}
    (h : containsSub pat s = false) : replaceOne pat rep s = s := by
  unfold containsSub at h
  unfold replaceOne
  cases hs : splitFirst pat s with
  | none => rfl
  | some pq => rw [hs] at h; simp at h

theorem replaceOne_ne_of_longer {pat rep s : List Char}
    (hlen : pat.length < rep.length) (h : containsSub pat s = true) :
    replaceOne pat rep s ≠ s := by
  unfold containsSub at h
  cases hs : splitFirst pat s with
  | none => rw [hs] at h; simp at h
  | some pq =>
    have hsplit := splitFirst_eq_append pat s pq hs
    unfold replaceOne
    rw [hs]
    show pq.1 ++ rep ++ pq.2 ≠ s
    intro heq
    have h1 : (pq.1 ++ rep ++ pq.2).length = s.length := by rw [heq]
    rw [hsplit] at h1
    simp [List.length_append] at h1
    omega

theorem prefix_append_cases {M A B : List Char} (h : M <+: A ++ B) :
    M <+: A ∨ ∃ M₂, M = A ++ M₂ ∧ M₂ <+: B := by
  have hM := List.prefix_iff_eq_take.mp h
  rw [List.take_append_eq_append_take] at hM
  by_cases hl : M.length ≤ A.length
  · left
    have h0 : M.length - A.length = 0 := by omega
    rw [h0] at hM
    simp only [List.take_zero, List.append_nil] at hM
    rw [hM]
    exact List.take_prefix _ _
  · right
    have hA : A.take M.length = A := List.take_of_length_le (by omega)
    rw [hA] at hM
    exact ⟨B.take (M.length - A.length), hM, List.take_prefix _ _⟩

theorem suffix_append_short {M₁ p pat : List Char} (h : M₁ <:+ p ++ pat)
    (hl : M₁.length ≤ pat.length) : M₁ <:+ pat := by
  have hM := List.suffix_iff_eq_drop.mp h
  have harith : (p ++ pat).length - M₁.length =
      p.length + (pat.length - M₁.length) := by
    simp only [List.length_append]
    omega
  rw [harith] at hM
  have hdrop : (p ++ pat).drop (p.length + (pat.length - M₁.length)) =
      pat.drop (pat.length - M₁.length) := by
    rw [← List.drop_drop, List.drop_left]
  rw [hdrop] at hM
  rw [hM]
  exact List.drop_suffix _ _

theorem suffix_append_long {M₁ p pat : List Char} (h : M₁ <:+ p ++ pat)
    (hl : pat.length ≤ M₁.length) : pat <:+ M₁ := by
  have hM := List.suffix_iff_eq_drop.mp h
  have hlen : M₁.length ≤ (p ++ pat).length := h.length_le
  obtain ⟨d, hd_def⟩ : ∃ d, (p ++ pat).length - M₁.length = d := ⟨_, rfl⟩
  rw [hd_def] at hM
  have hd : d ≤ p.length := by
    simp only [List.length_append] at hlen hd_def
    omega
  have harith : d + (p.length - d) = p.length := by omega
  have hgoal : pat = M₁.drop (p.length - d) := by
    rw [hM, List.drop_drop, harith]
    exact (List.drop_left p pat).symm
  rw [hgoal]
  exact List.drop_suffix _ _

theorem suffix_concat_mem {M₁ pre : List Char} {c : Char}
    (h : M₁ <:+ pre ++ [c]) (hne : M₁ ≠ []) : c ∈ M₁ := by
  obtain ⟨t, ht⟩ := h
  have h1 : (t ++ M₁).getLast? = some c := by
    rw [ht]
    exact List.getLast?_concat pre
  rw [List.getLast?_append_of_ne_nil t hne] at h1
  have h2 : c ∈ M₁.getLast? := h1
  obtain ⟨hne2, heq⟩ := List.mem_getLast?_eq_getLast h2
  rw [heq]
  exact List.getLast_mem hne2

theorem infix_append_cases {M B : List Char} :
    ∀ (A : List Char), M <:+: A ++ B →
      M <:+: A ∨ M <:+: B ∨
        ∃ M₁ M₂, M = M₁ ++ M₂ ∧ M₁ ≠ [] ∧ M₂ ≠ [] ∧ M₁ <:+ A ∧ M₂ <+: B := by
  intro A
  induction A with
  | nil =>
    intro h
    right; left
    simpa using h
  | cons a A ih =>
    intro h
    rw [List.cons_append, List.infix_cons_iff] at h
    rcases h with hp | hi
    · have hp' : M <+: (a :: A) ++ B := by simpa using hp
      rcases prefix_append_cases hp' with h1 | ⟨M₂, hM, h2⟩
      · exact Or.inl h1.isInfix
      · by_cases hM₂ : M₂ = []
        · subst hM₂
          rw [List.append_nil] at hM
          left
          rw [hM]
        · right; right
          exact ⟨a :: A, M₂, hM, by simp, hM₂, List.suffix_rfl, h2⟩
    · rcases ih hi with h1 | h1 | ⟨M₁, M₂, hM, h2, h3, h4, h5⟩
      · exact Or.inl (List.infix_cons h1)
      · exact Or.inr (Or.inl h1)
      · right; right
        exact ⟨M₁, M₂, hM, h2, h3, h4.trans (List.suffix_cons a A), h5⟩

/-- Inserting `r` right after an occurrence of `pat` preserves any infix `M`
that is shorter than `pat` and avoids `pat`'s last character: `M` cannot
straddle the insertion point. -/
theorem infix_insert_preserved (pre : List Char) (c : Char) (r : List Char)
    {M p pat q : List Char} (hpatc : pat = pre ++ [c]) (hc : c ∉ M)
    (hlen : M.length < pat.length) (hM : M <:+: p ++ pat ++ q) :
    M <:+: p ++ pat ++ r ++ q := by
  rcases infix_append_cases (p ++ pat) hM with h2 | h2 | hstraddle
  · have hres : M <:+: (p ++ pat) ++ (r ++ q) :=
      h2.trans (List.prefix_append _ _).isInfix
    simpa [List.append_assoc] using hres
  · have hres : M <:+: ((p ++ pat) ++ r) ++ q :=
      h2.trans (List.suffix_append _ _).isInfix
    simpa [List.append_assoc] using hres
  · exfalso
    obtain ⟨M₁, M₂, hMeq, hne1, _, hsuf, _⟩ := hstraddle
    have hpm : M₁ <+: M := by rw [hMeq]; exact List.prefix_append M₁ M₂
    by_cases hl : M₁.length ≤ pat.length
    · have hsuf2 : M₁ <:+ pat := suffix_append_short hsuf hl
      rw [hpatc] at hsuf2
      have hcm : c ∈ M₁ := suffix_concat_mem hsuf2 hne1
      exact hc (hpm.subset hcm)
    · have hsuf2 : pat <:+ M₁ := suffix_append_long hsuf (by omega)
      have hinf : pat <:+: M := hsuf2.isInfix.trans hpm.isInfix
      have := hinf.length_le
      omega

/-- The instrumentation marker whose presence makes the patcher exit early. -/
def markerText : List Char :=
  "replay-analyzer: PseudoRandom instrumentation".toList

/-- Step 1's anchor: the exact seedrandom constructor assignment. -/
def ctorLine : List Char :=
  "this.rng = seedrandom(String(seed));".toList

/-- Step 1's replacement: the constructor assignment with state enabled. -/
def ctorLinePatched : List Char :=
  "this.rng = seedrandom(String(seed), \x7b state: true \x7d);".toList

/-- Step 2's anchor: the seedrandom import line. -/
def importMarker : List Char :=
  "import seedrandom from \"seedrandom\";\n".toList

/-- Step 2's injected registry helpers (appended right after the import). -/
def registryHelpers : List Char :=
  "\n".toList ++
  "// replay-analyzer: PseudoRandom instrumentation (state capture + restore)\n".toList ++
  "const __REPLAY_ANALYZER_PRNG_REGISTRY_KEY = Symbol.for(\"replay-analyzer.openfront.PseudoRandom.registry\");\n".toList ++
  "type __ReplayAnalyzerRegistry = \x7b bySeed: Map<number, any[]> \x7d;\n".toList ++
  "function __replayAnalyzerRegistry(): __ReplayAnalyzerRegistry \x7b\n".toList ++
  "  const g = globalThis as any;\n".toList ++
  "  if (!g[__REPLAY_ANALYZER_PRNG_REGISTRY_KEY]) \x7b\n".toList ++
  "    g[__REPLAY_ANALYZER_PRNG_REGISTRY_KEY] = \x7b bySeed: new Map<number, any[]>() \x7d as __ReplayAnalyzerRegistry;\n".toList ++
  "  \x7d\n".toList ++
  "  return g[__REPLAY_ANALYZER_PRNG_REGISTRY_KEY] as __ReplayAnalyzerRegistry;\n".toList ++
  "\x7d\n".toList ++
  "export function __replayAnalyzerResetPseudoRandomRegistry(): void \x7b\n".toList ++
  "  const g = globalThis as any;\n".toList ++
  "  g[__REPLAY_ANALYZER_PRNG_REGISTRY_KEY] = \x7b bySeed: new Map<number, any[]>() \x7d as __ReplayAnalyzerRegistry;\n".toList ++
  "\x7d\n".toList

/-- Step 3's injected constructor registration (appended right after the
patched constructor assignment). -/
def registrationCode : List Char :=
  "\n".toList ++
  "\n".toList ++
  "    const reg = __replayAnalyzerRegistry();\n".toList ++
  "    const list = reg.bySeed.get(seed) ?? [];\n".toList ++
  "    const index = list.length;\n".toList ++
  "    list.push(this);\n".toList ++
  "    reg.bySeed.set(seed, list);\n".toList ++
  "    (this as any).__replayAnalyzer = \x7b seed, index \x7d;\n".toList

/-- Step 4's anchor: the end of the `shuffleArray` method body. -/
def shuffleEndMarker : List Char :=
  "  shuffleArray<T>(array: T[]): T[] \x7b\n".toList ++
  "    const result = [...array];\n".toList ++
  "    for (let i = result.length - 1; i > 0; i--) \x7b\n".toList ++
  "      const j = this.nextInt(0, i + 1);\n".toList ++
  "      [result[i], result[j]] = [result[j], result[i]];\n".toList ++
  "    \x7d\n".toList ++
  "    return result;\n".toList ++
  "  \x7d\n".toList

/-- Step 4's injected state accessor methods (appended after `shuffleArray`). -/
def stateMethods : List Char :=
  "\n".toList ++
  "  // replay-analyzer: expose seedrandom internal state so we can snapshot/restore determinism across commits.\n".toList ++
  "  __replayAnalyzerMeta(): \x7b seed: number; index: number \x7d | null \x7b\n".toList ++
  "    return (this as any).__replayAnalyzer ?? null;\n".toList ++
  "  \x7d\n".toList ++
  "\n".toList ++
  "  __replayAnalyzerGetState(): any \x7b\n".toList ++
  "    const fn = (this.rng as any).state;\n".toList ++
  "    return typeof fn === \"function\" ? fn.call(this.rng) : null;\n".toList ++
  "  \x7d\n".toList ++
  "\n".toList ++
  "  __replayAnalyzerSetState(state: any): void \x7b\n".toList ++
  "    // seedrandom supports restoring from state via options.state\n".toList ++
  "    this.rng = seedrandom(\"\", \x7b state \x7d as any) as any;\n".toList ++
  "  \x7d\n".toList

/-- Step 1, `next.replace(ctorLine, ctorLinePatched)` — enable seedrandom state. -/
def patchStep1 (s : List Char) : List Char := replaceOne ctorLine ctorLinePatched s

/-- Step 2, `next.replace(importMarker, importMarker + helpers)`. -/
def patchStep2 (s : List Char) : List Char :=
  replaceOne importMarker (importMarker ++ registryHelpers) s

/-- Step 3, `next.replace(ctorLinePatched, ctorLinePatched + registration)`. -/
def patchStep3 (s : List Char) : List Char :=
  replaceOne ctorLinePatched (ctorLinePatched ++ registrationCode) s

/-- Step 4, `next.replace(shuffleEndMarker, shuffleEndMarker + methods)`. -/
def patchStep4 (s : List Char) : List Char :=
  replaceOne shuffleEndMarker (shuffleEndMarker ++ stateMethods) s

/-- Model of `tryPatchPseudoRandomForReplayAnalyzer`'s effect on the content of
`src/core/PseudoRandom.ts`: returns the file's new content; returning the
input unchanged models the early `return`s (marker already present, or an
anchor missing), since the file is only written after every edit
succeeded. -/
def tryPatchPseudoRandomContent (original : List Char) : List Char :=
  if containsSub markerText original = true then original
  else
    let next1 := patchStep1 original
    if next1 = original then original
    else if containsSub importMarker next1 = false then original
    else
      let next3 := patchStep3 (patchStep2 next1)
      if containsSub shuffleEndMarker next3 = false then original
      else patchStep4 next3

theorem marker_infix_patchStep2 {s : List Char}
    (h : containsSub importMarker s = true) :
    markerText <:+: patchStep2 s := by
  unfold containsSub at h
  unfold patchStep2 replaceOne
  cases hs : splitFirst importMarker s with
  | none => rw [hs] at h; simp at h
  | some pq =>
    have h1 : markerText <:+: registryHelpers := infix_of_containsSub (by decide)
    obtain ⟨x, y, hxy⟩ := h1
    refine ⟨pq.1 ++ importMarker ++ x, y ++ pq.2, ?_⟩
    rw [← hxy]
    simp [List.append_assoc]

theorem marker_infix_patchStep3 {s : List Char} (h : markerText <:+: s) :
    markerText <:+: patchStep3 s := by
  unfold patchStep3 replaceOne
  cases hs : splitFirst ctorLinePatched s with
  | none => exact h
  | some pq =>
    have hdec := splitFirst_eq_append ctorLinePatched s pq hs
    rw [hdec] at h
    have hins := infix_insert_preserved ctorLinePatched.dropLast ';'
      registrationCode (by decide) (by decide) (by decide) h
    simpa [List.append_assoc] using hins

theorem marker_infix_patchStep4 {s : List Char} (h : markerText <:+: s) :
    markerText <:+: patchStep4 s := by
  unfold patchStep4 replaceOne
  cases hs : splitFirst shuffleEndMarker s with
  | none => exact h
  | some pq =>
    have hdec := splitFirst_eq_append shuffleEndMarker s pq hs
    rw [hdec] at h
    have hins := infix_insert_preserved shuffleEndMarker.dropLast '\n'
      stateMethods (by decide) (by decide) (by decide) h
    simpa [List.append_assoc] using hins

theorem tryPatch_of_marker {s : List Char}
    (h : containsSub markerText s = true) :
    tryPatchPseudoRandomContent s = s := by
  unfold tryPatchPseudoRandomContent
  simp [h]

theorem tryPatch_cases (s : List Char) :
    tryPatchPseudoRandomContent s = s ∨
      (containsSub markerText s = false ∧ patchStep1 s ≠ s ∧
        containsSub importMarker (patchStep1 s) = true ∧
        containsSub shuffleEndMarker (patchStep3 (patchStep2 (patchStep1 s))) = true ∧
        tryPatchPseudoRandomContent s =
          patchStep4 (patchStep3 (patchStep2 (patchStep1 s)))) := by
  unfold tryPatchPseudoRandomContent
  by_cases h1 : containsSub markerText s = true
  · left; simp [h1]
  · by_cases h2 : patchStep1 s = s
    · left; simp [h1, h2]
    · by_cases h3 : containsSub importMarker (patchStep1 s) = false
      · left; simp [h1, h2, h3]
      · by_cases h4 : containsSub shuffleEndMarker
            (patchStep3 (patchStep2 (patchStep1 s))) = false
        · left; simp [h1, h2, h3, h4]
        · right
          refine ⟨by simpa using h1, h2, by simpa using h3, by simpa using h4, ?_⟩
          simp [h1, h2, h3, h4]

/-- C10: `tryPatchPseudoRandomForReplayAnalyzer` is idempotent and
all-or-nothing on the file content: a file already carrying the
instrumentation marker is returned unchanged; a missing anchor (the
seedrandom constructor assignment, the import line after step 1, or the
`shuffleArray` body after steps 2–3) leaves the content byte-for-byte
unchanged; the result is either the unchanged input or the fully patched
content, which carries the marker — so a second application returns it
unchanged. -/
theorem tryPatch_idempotent_and_all_or_nothing (s : List Char) :
    (tryPatchPseudoRandomContent (tryPatchPseudoRandomContent s) =
        tryPatchPseudoRandomContent s) ∧
      (containsSub markerText s = true → tryPatchPseudoRandomContent s = s) ∧
      (containsSub ctorLine s = false → tryPatchPseudoRandomContent s = s) ∧
      (containsSub importMarker (patchStep1 s) = false →
        tryPatchPseudoRandomContent s = s) ∧
      (containsSub shuffleEndMarker (patchStep3 (patchStep2 (patchStep1 s))) = false →
        tryPatchPseudoRandomContent s = s) ∧
      (tryPatchPseudoRandomContent s = s ∨
        (tryPatchPseudoRandomContent s =
            patchStep4 (patchStep3 (patchStep2 (patchStep1 s))) ∧
          containsSub markerText (tryPatchPseudoRandomContent s) = true)) := by
  have hmark : ∀ h2 : patchStep1 s ≠ s,
      containsSub importMarker (patchStep1 s) = true →
      containsSub markerText (patchStep4 (patchStep3 (patchStep2 (patchStep1 s)))) = true := by
    intro _ h3
    exact containsSub_of_infix _ _
      (marker_infix_patchStep4 (marker_infix_patchStep3 (marker_infix_patchStep2 h3)))
  refine ⟨?_, ?_, ?_, ?_, ?_, ?_⟩
  · rcases tryPatch_cases s with hc | hc
    · rw [hc, hc]
    · obtain ⟨_, h2, h3, _, he⟩ := hc
      rw [he]
      exact tryPatch_of_marker (hmark h2 h3)
  · exact tryPatch_of_marker
  · intro h
    rcases tryPatch_cases s with hc | hc
    · exact hc
    · exact absurd (replaceOne_of_not_contains h) hc.2.1
  · intro h
    rcases tryPatch_cases s with hc | hc
    · exact hc
    · rw [hc.2.2.1] at h
      exact absurd h (by simp)
  · intro h
    rcases tryPatch_cases s with hc | hc
    · exact hc
    · rw [hc.2.2.2.1] at h
      exact absurd h (by simp)
  · rcases tryPatch_cases s with hc | hc
    · exact Or.inl hc
    · obtain ⟨_, h2, h3, _, he⟩ := hc
      refine Or.inr ⟨he, ?_⟩
      rw [he]
      exact hmark h2 h3

/-! ### Witnesses -/

/-- Witness for C5's amended theorem: a concrete reference run starting at
tick 0 whose after-tick trace reaches tick 100 keeps every snapshot key
within 0–30. -/
theorem rngSnapshotsByTick_keys_bounded_witness :
    (0 : Nat) ≤ 30 ∧
      ∀ x ∈ assocKeys (captureRunSnaps (some [(0, [CStream.mk (some (5 : Nat))])])
        0 [1, 2, 30, 31, 100]), x ≤ 30 :=
  ⟨by decide,
    rngSnapshotsByTick_keys_bounded (some [(0, [CStream.mk (some (5 : Nat))])])
      0 [1, 2, 30, 31, 100] (by decide)⟩

/-- Witness for C6's amended theorem: on a concrete runtime with all four
entry points present, cleanup restores the original record, and with
profiling inactive the skeleton invokes cleanup exactly once. -/
theorem cleanup_restores_originals_and_runs_once_witness :
    cleanupPatches
        (installPatches (fun _ v => v + 10) (RuntimeFns.mk (some 0) (some 1) (some 2) (some 3))).2
        (installPatches (fun _ v => v + 10) (RuntimeFns.mk (some 0) (some 1) (some 2) (some 3))).1 =
      RuntimeFns.mk (some (0 : Nat)) (some 1) (some 2) (some 3) ∧
      (runReplaySkeleton false false (fun m => (Except.ok (), m)) 0).2 = 0 + 1 :=
  ⟨(cleanup_restores_originals_and_runs_once (fun _ v => v + 10)
      (RuntimeFns.mk (some 0) (some 1) (some 2) (some 3)) false false
      (Except.ok ()) 0 (by decide)).1,
    (cleanup_restores_originals_and_runs_once (fun _ v => v + 10)
      (RuntimeFns.mk (some (0 : Nat)) (some 1) (some 2) (some 3)) false false
      (Except.ok ()) 0 (by decide)).2⟩

/-- Witness for C7: a concrete spawn execution for a mapped player gets its
tile and name overwritten from the captured assignment. -/
theorem spawn_injection_overrides_mapped_players_witness :
    overrideSpawnExec [("p1", SpawnRef.mk 7 1 2 "Alice" "HUMAN")]
        (ExecObj.mk "SpawnExecution" (some "p1") "Bob" 3) =
      ExecObj.mk "SpawnExecution" (some "p1") "Alice" 7 :=
  (spawn_injection_overrides_mapped_players
      [("p1", SpawnRef.mk 7 1 2 "Alice" "HUMAN")] (fun _ => (0 : Nat)) []
      (ExecObj.mk "SpawnExecution" (some "p1") "Bob" 3) "p1"
      (SpawnRef.mk 7 1 2 "Alice" "HUMAN")).2.1 rfl rfl (by decide)

/-- Witness for C9: a tick with no captured snapshot returns registry and
warnings untouched, and a throwing setter yields exactly one warning while
keeping the registry state reached so far. -/
theorem restoreRngSnapshot_witness :
    restoreRngSnapshot ([] : List (Nat × List (SnapEntry Nat))) (some []) 0 [] =
        (some [], []) ∧
      restoreRngSnapshot [(3, [SnapEntry.mk 0 0 (42 : Nat)])]
          (some [(0, [IStream.mk (0 : Nat) true (some "boom")])]) 3 [] =
        (some [(0, [IStream.mk (0 : Nat) true (some "boom")])],
          [msgRestoreFail 3 "boom"]) :=
  ⟨(restoreRngSnapshot_silent_and_warns_only_on_throw
      ([] : List (Nat × List (SnapEntry Nat))) (some []) 0 []).1 rfl,
    (restoreRngSnapshot_silent_and_warns_only_on_throw
      [(3, [SnapEntry.mk 0 0 (42 : Nat)])]
      (some [(0, [IStream.mk (0 : Nat) true (some "boom")])]) 3 []).2.2.2.2
      [SnapEntry.mk 0 0 (42 : Nat)]
      [(0, [IStream.mk (0 : Nat) true (some "boom")])] "boom"
      (by decide) (by decide) (by decide)⟩

/-- Witness for C10: a file already carrying the instrumentation marker is
returned unchanged, and a file lacking the constructor anchor is returned
unchanged. -/
theorem tryPatch_idempotent_and_all_or_nothing_witness :
    tryPatchPseudoRandomContent markerText = markerText ∧
      tryPatchPseudoRandomContent [] = [] :=
  ⟨(tryPatch_idempotent_and_all_or_nothing markerText).2.1 (by decide),
    (tryPatch_idempotent_and_all_or_nothing []).2.2.1 (by decide)⟩

end ReplayAnalyzer
